import Mathlib

/-!
Verification development for `empathetic_code_reviewer.py`.

Shallow embedding conventions:
* Exceptions are modelled with `Except PyErr`; a Python function that cannot
  raise is embedded as a total function.
* The external LM calls (dspy `ChainOfThought` invocations) are oracles passed
  in as function parameters returning `Except PyErr _`.
* `re.findall(pattern, code, re.IGNORECASE | re.MULTILINE)` is embedded through
  an uninterpreted match-count oracle `mc : String -> String -> Nat` giving, for
  each pattern and code string, the number of non-overlapping case-insensitive
  matches; the scoring, argmax, tie-break and guard logic is proved for every
  such oracle.
-/

/-- Python exception classes that the embedded code can raise. -/
inductive PyErr where
  | attributeError
  | typeError
  | nameError
  | other (msg : String)
deriving DecidableEq, Repr

/-- ASCII whitespace stripped by Python `str.strip()` (Python also strips some
further Unicode space characters, which no claim here exercises). -/
def pyIsSpace (c : Char) : Bool :=
  c = ' ' || c = '\t' || c = '\n' || c = '\r' || c = Char.ofNat 11 || c = Char.ofNat 12

/-- Embedding of Python `s.strip()`. -/
def pyStrip (s : String) : String :=
  String.mk (((s.data.dropWhile pyIsSpace).reverse.dropWhile pyIsSpace).reverse)

/-- Embedding of the guard `not code or not code.strip()`. -/
def pyBlank (code : String) : Bool :=
  code == "" || pyStrip code == ""

/-- `LanguageDetector.LANGUAGE_PATTERNS`: the ordered per-language regex
pattern table, transcribed verbatim from the source. -/
def LANGUAGE_PATTERNS : List (String × List String) :=
  [ ("Python",
      [ "\\bdef\\s+\\w+\\s*\\(",
        "\\bimport\\s+\\w+",
        "\\bfrom\\s+\\w+\\s+import",
        "\\bclass\\s+\\w+",
        "\\bif\\s+.*:",
        "\\bfor\\s+.*\\s+in\\s+",
        "\\bwhile\\s+.*:",
        "@\\w+",
        "\\bprint\\s*\\(",
        "\\.py\\b" ]),
    ("JavaScript",
      [ "\\bfunction\\s+\\w+\\s*\\(",
        "\\bconst\\s+\\w+\\s*=",
        "\\blet\\s+\\w+\\s*=",
        "\\bvar\\s+\\w+\\s*=",
        "\\b=>\\s*\x7b",
        "\\bconsole\\.log",
        "\\bdocument\\.getElementById",
        "\\brequire\\s*\\(",
        "\\.js\\b" ]),
    ("Java",
      [ "\\bpublic\\s+class\\s+\\w+",
        "\\bprivate\\s+\\w+\\s+\\w+",
        "\\bpublic\\s+static\\s+void\\s+main",
        "\\bSystem\\.out\\.println",
        "\\bimport\\s+java\\.",
        "\\bextends\\s+\\w+",
        "\\bimplements\\s+\\w+",
        "@Override",
        "\\.java\\b" ]),
    ("C++",
      [ "#include\\s*<.*>",
        "\\bint\\s+main\\s*\\(",
        "\\bstd::",
        "\\bcout\\s*<<",
        "\\bcin\\s*>>",
        "\\bnamespace\\s+\\w+",
        "\\.cpp\\b|\\.hpp\\b" ]),
    ("C#",
      [ "\\busing\\s+\\w+;",
        "\\bnamespace\\s+\\w+",
        "\\bpublic\\s+class\\s+\\w+",
        "\\bConsole\\.WriteLine",
        "\\bstring\\s*\\[",
        "\\.cs\\b" ]),
    ("TypeScript",
      [ "\\binterface\\s+\\w+",
        "\\btype\\s+\\w+\\s*=",
        ":\\s*\\w+\\s*=",
        "\\bexport\\s+interface",
        "\\.ts\\b|\\.tsx\\b" ]),
    ("Go",
      [ "\\bpackage\\s+\\w+",
        "\\bfunc\\s+\\w+\\s*\\(",
        "\\bimport\\s+\\(",
        "\\bvar\\s+\\w+\\s+\\w+",
        "\\.go\\b" ]),
    ("Rust",
      [ "\\bfn\\s+\\w+\\s*\\(",
        "\\blet\\s+mut\\s+\\w+",
        "\\buse\\s+\\w+",
        "\\bimpl\\s+\\w+",
        "\\.rs\\b" ]) ]

/-- Match-count oracle: for a pattern and a code string, the value of
`len(re.findall(pattern, code, re.IGNORECASE | re.MULTILINE))`. -/
abbrev MatchCount := String → String → Nat

/-- The per-language score loop: `score += len(matches)` over the patterns. -/
def languageScore (mc : MatchCount) (code : String) (patterns : List String) : Nat :=
  patterns.foldl (fun score pattern => score + mc pattern code) 0

/-- The `scores` dict built by `detect_language_regex`, as an ordered
association list (Python dicts preserve insertion order). -/
def scoresFor (mc : MatchCount) (code : String) : List (String × Nat) :=
  LANGUAGE_PATTERNS.map (fun lp => (lp.1, languageScore mc code lp.2))

/-- Embedding of Python `max(iterable, key=f)` over `x :: l`: it keeps the
first element encountered and replaces it only on a strictly larger key, so
ties go to the earliest element. -/
def pyMaxByKey (f : α → Nat) (x : α) (l : List α) : α :=
  l.foldl (fun best y => if f y > f best then y else best) x

/-- Embedding of Python `max(scores.values())` (the values are naturals, so
the fold with base 0 agrees with max over a nonempty list). -/
def listMaxVal (f : α → Nat) (l : List α) : Nat :=
  l.foldr (fun a m => Nat.max (f a) m) 0

/-- First element of the list whose key equals `m` (the selection rule the
spec describes for the tie-break). -/
def firstWithVal (f : α → Nat) (m : Nat) : List α → Option α
  | [] => none
  | a :: l => if f a = m then some a else firstWithVal f m l

/-- `LanguageDetector.detect_language_regex`, with the regex engine abstracted
by the match-count oracle `mc`. -/
def detect_language_regex (mc : MatchCount) (code : String) : String :=
  if pyBlank code then "Unknown"
  else
    match scoresFor mc code with
    | [] => "Unknown"
    | s :: rest =>
      if listMaxVal Prod.snd (s :: rest) = 0 then "Unknown"
      else (pyMaxByKey Prod.snd s rest).1

/-- Modelled from the spec: the detector contract of section 4.1 in the spec
document — sum the match counts per language, return "Unknown" on a blank
snippet or an all-zero maximum, otherwise the first language (in the pattern
table order) attaining the maximum score. -/
def spec_detect_regex (mc : MatchCount) (code : String) : String :=
  if pyBlank code then "Unknown"
  else
    let scores := scoresFor mc code
    let m := listMaxVal Prod.snd scores
    if m = 0 then "Unknown"
    else
      match firstWithVal Prod.snd m scores with
      | some p => p.1
      | none => "Unknown"

/-- The external LM callable: prompt in, reply out (or an exception). -/
abbrev LMFun := String → Except PyErr String

/-- `LanguageDetector.detect_language_llm`. The method is decorated
`@classmethod`, so its first parameter (named `self`) is bound to the class
`LanguageDetector` itself; the class has no attribute `lm` (only instances
get one, in `__init__`), so the very first statement `if not self.lm`
raises `AttributeError` before the try block is entered — on every call. -/
def detect_language_llm (_code : String) : Except PyErr String :=
  Except.error PyErr.attributeError

/-- `LanguageDetector.detect_language`: regex first; if that yields "Unknown"
and an LM is configured (`self.lm` is truthy), call the LLM fallback; any
exception from the fallback propagates to the caller. -/
def detect_language (mc : MatchCount) (lm : Option LMFun) (code : String) :
    Except PyErr String :=
  let language := detect_language_regex mc code
  if language = "Unknown" ∧ lm.isSome = true then detect_language_llm code
  else Except.ok language

-- ### Helper lemmas for the argmax characterization

lemma le_listMaxVal_head (f : α → Nat) (a : α) (l : List α) :
    f a ≤ listMaxVal f (a :: l) := by
  simp [listMaxVal, Nat.le_max_left]

lemma pyMaxByKey_cons (f : α → Nat) (x y : α) (l : List α) :
    pyMaxByKey f x (y :: l) = pyMaxByKey f (if f y > f x then y else x) l := by
  simp [pyMaxByKey, List.foldl]

lemma pyMaxByKey_eq_firstWithVal (f : α → Nat) :
    ∀ (l : List α) (x : α),
      some (pyMaxByKey f x l) = firstWithVal f (listMaxVal f (x :: l)) (x :: l) := by
  intro l
  induction l with
  | nil =>
    intro x
    simp [pyMaxByKey, listMaxVal, firstWithVal]
  | cons y ys ih =>
    intro x
    rw [pyMaxByKey_cons]
    by_cases hgt : f y > f x
    · rw [if_pos hgt, ih y]
      have hyle : f y ≤ listMaxVal f (y :: ys) := le_listMaxVal_head f y ys
      have hm : listMaxVal f (x :: y :: ys) = listMaxVal f (y :: ys) := by
        simp only [listMaxVal, List.foldr, Nat.max_def] at *
        split_ifs at * <;> omega
      rw [hm]
      have hxne : f x ≠ listMaxVal f (y :: ys) := by
        exact Nat.ne_of_lt (lt_of_lt_of_le hgt hyle)
      simp [firstWithVal, hxne]
    · rw [if_neg hgt, ih x]
      have hyx : f y ≤ f x := Nat.le_of_not_lt hgt
      have hm : listMaxVal f (x :: y :: ys) = listMaxVal f (x :: ys) := by
        simp only [listMaxVal, List.foldr, Nat.max_def]
        split_ifs <;> omega
      rw [hm]
      by_cases hx : f x = listMaxVal f (x :: ys)
      · simp [firstWithVal, hx]
      · have hxlt : f x < listMaxVal f (x :: ys) :=
          lt_of_le_of_ne (le_listMaxVal_head f x ys) hx
        have hyne : f y ≠ listMaxVal f (x :: ys) :=
          Nat.ne_of_lt (lt_of_le_of_lt hyx hxlt)
        simp [firstWithVal, hx, hyne]

/-- Claim C2: for every match-count oracle and every code string,
`detect_language_regex` agrees with the spec-side selection rule: sum the
per-pattern match counts per language, return "Unknown" when the snippet is
blank or the maximum score is zero, and otherwise return the language with
the maximum score, ties broken by the first language in the pattern-set
order; moreover that order is exactly Python, JavaScript, Java, C++, C#,
TypeScript, Go, Rust. -/
theorem c2_regex_detection :
    (∀ (mc : MatchCount) (code : String),
      detect_language_regex mc code = spec_detect_regex mc code) ∧
    LANGUAGE_PATTERNS.map Prod.fst =
      ["Python", "JavaScript", "Java", "C++", "C#", "TypeScript", "Go", "Rust"] := by
  constructor
  · intro mc code
    unfold detect_language_regex spec_detect_regex
    by_cases hb : pyBlank code
    · simp [hb]
    · simp only [hb, Bool.false_eq_true, if_false]
      cases hsc : scoresFor mc code with
      | nil => simp [listMaxVal]
      | cons s rest =>
        by_cases hz : listMaxVal Prod.snd (s :: rest) = 0
        · simp [hz]
        · simp only [hz, if_neg, if_false]
          rw [← pyMaxByKey_eq_firstWithVal]
  · rfl

/-- The value found under the "resources" key of a transformed-comment dict.
The generator may hand back a single delimited string or an itemized list;
`Resources.rnone` models the Python value `None` (falsy, like an empty string
or empty list); a dict with no "resources" key at all behaves — through
`comment.get("resources", [])` — exactly like `rlist []`. -/
inductive Resources where
  | rnone : Resources
  | rstr (s : String) : Resources
  | rlist (l : List String) : Resources
deriving DecidableEq, Repr

/-- A transformed-comment dict as consumed by `generate_markdown_report`.
The keys "original", "positive_rephrasing", "explanation" and
"suggested_improvement" are read with mandatory indexing in the renderer and
are mandatory fields here; "severity" is read with
`.get("severity", "MEDIUM")`, so an absent key is modelled by `none`. -/
structure CommentDict where
  original : String
  positive_rephrasing : String
  explanation : String
  suggested_improvement : String
  severity : Option String
  resources : Resources
deriving DecidableEq, Repr

/-- `severity_order.get(x.get("severity", "MEDIUM"), 1)`:
HIGH 0, MEDIUM 1, LOW 2, anything else 1. -/
def severityRank (c : CommentDict) : Nat :=
  let s := c.severity.getD "MEDIUM"
  if s = "HIGH" then 0 else if s = "MEDIUM" then 1 else if s = "LOW" then 2 else 1

/-- The severity emoji lookup with default, from the renderer loop. -/
def severityEmoji (c : CommentDict) : String :=
  let s := c.severity.getD "MEDIUM"
  if s = "HIGH" then "🔴" else if s = "MEDIUM" then "🟡" else if s = "LOW" then "🟢" else "🟡"

/-- Stable insertion step: a new element goes before the first element of
equal or larger rank, so earlier elements of equal rank stay in front. -/
def insRank (rank : α → Nat) (a : α) : List α → List α
  | [] => [a]
  | b :: bs => if rank a ≤ rank b then a :: b :: bs else b :: insRank rank a bs

/-- Embedding of `comments.sort(key=...)`: CPython list.sort is documented as
stable, and a stable sort is determined uniquely by the key function, so any
stable sorting algorithm — here insertion sort — is a faithful embedding. -/
def pySortByRank (rank : α → Nat) : List α → List α
  | [] => []
  | a :: as => insRank rank a (pySortByRank rank as)

/-- The dict literal `lang_map` in `generate_markdown_report`. -/
def lang_map : List (String × String) :=
  [ ("Python", "python"),
    ("JavaScript", "javascript"),
    ("Java", "java"),
    ("C++", "cpp"),
    ("C#", "csharp"),
    ("TypeScript", "typescript"),
    ("Go", "go"),
    ("Rust", "rust"),
    ("Unknown", "text") ]

/-- Python `dict.get(key, default)` over an ordered association list. -/
def dictGetD (m : List (String × String)) (k d : String) : String :=
  match m.find? (fun p => p.1 == k) with
  | some p => p.2
  | none => d

/-- The Learning Resources sub-block of one feedback section.
String case: `[line.strip() for line in resources.split('\n') if line.strip()]`,
one bullet per surviving line. List case: one bullet per item `r` with
`r and r.strip()` truthy. Falsy values (None, "", []) emit nothing. -/
def resourcesBlock (res : Resources) : String :=
  match res with
  | Resources.rnone => ""
  | Resources.rstr s =>
    if s = "" then ""
    else
      "**📖 Learning Resources:**\n"
      ++ String.join ((s.splitOn "\n").filterMap (fun line =>
            let t := pyStrip line
            if t = "" then none else some ("- " ++ t ++ "\n")))
      ++ "\n"
  | Resources.rlist l =>
    if l = [] then ""
    else
      "**📖 Learning Resources:**\n"
      ++ String.join (l.filterMap (fun r =>
            if r = "" then none
            else
              let t := pyStrip r
              if t = "" then none else some ("- " ++ t ++ "\n")))
      ++ "\n"

/-- One iteration of the renderer loop (`enumerate(comments, 1)` supplies the
1-based index `i`). -/
def commentSection (code_lang : String) (i : Nat) (c : CommentDict) : String :=
  "---\n\n"
  ++ ("### " ++ severityEmoji c ++ " Analysis of Comment #" ++ toString i ++ ": \"" ++ c.original ++ "\"\n\n")
  ++ ("**✨ Positive Rephrasing:**\n" ++ c.positive_rephrasing ++ "\n\n")
  ++ ("**📚 The \x27Why\x27:**\n" ++ c.explanation ++ "\n\n")
  ++ ("**🔧 Suggested Improvement:**\n```" ++ code_lang ++ "\n" ++ c.suggested_improvement ++ "\n```\n\n")
  ++ resourcesBlock c.resources

/-- The renderer loop over the (already sorted) comments. -/
def renderSections (code_lang : String) : Nat → List CommentDict → List String
  | _, [] => []
  | i, c :: cs => commentSection code_lang i c :: renderSections code_lang (i + 1) cs

/-- `EmpatheticCodeReviewer.generate_markdown_report`, chunk for chunk. -/
def generate_markdown_report (code_snippet : String) (comments : List CommentDict)
    (summary : String) (language : String) : String :=
  let code_lang := dictGetD lang_map language "text"
  "# 🌟 Code Review Feedback Report\n\n"
  ++ ("**Programming Language Detected:** " ++ language ++ "\n\n")
  ++ "## 📝 Original Code\n\n"
  ++ ("```" ++ code_lang ++ "\n" ++ code_snippet ++ "\n```\n\n")
  ++ "## 💡 Detailed Feedback\n\n"
  ++ String.join (renderSections code_lang 1 (pySortByRank severityRank comments))
  ++ "---\n\n"
  ++ "## 🎯 Overall Summary\n\n"
  ++ (summary ++ "\n\n")
  ++ "---\n\n"
  ++ "*Remember: Every expert was once a beginner. Keep coding, keep learning, and keep growing! 🚀*\n"

-- ### Stable-sort lemmas

lemma insRank_of_le (rank : α → Nat) (a : α) (l : List α)
    (h : ∀ b ∈ l, rank a ≤ rank b) : insRank rank a l = a :: l := by
  cases l with
  | nil => rfl
  | cons b bs => simp [insRank, h b (by simp)]

lemma insRank_append_of_lt (rank : α → Nat) (a : α) (l₁ l₂ : List α)
    (h : ∀ b ∈ l₁, rank b < rank a) :
    insRank rank a (l₁ ++ l₂) = l₁ ++ insRank rank a l₂ := by
  induction l₁ with
  | nil => rfl
  | cons b bs ih =>
    have hb : rank b < rank a := h b (by simp)
    have hna : ¬ rank a ≤ rank b := by omega
    simp only [List.cons_append, insRank, if_neg hna]
    exact congrArg (List.cons b) (ih (fun x hx => h x (by simp [hx])))

lemma insRank_perm (rank : α → Nat) (a : α) (l : List α) :
    (insRank rank a l).Perm (a :: l) := by
  induction l with
  | nil => exact List.Perm.refl _
  | cons b bs ih =>
    by_cases hc : rank a ≤ rank b
    · simp [insRank, hc]
    · simp only [insRank, if_neg hc]
      exact (List.Perm.cons b ih).trans (List.Perm.swap a b bs)

lemma pySortByRank_perm (rank : α → Nat) (l : List α) :
    (pySortByRank rank l).Perm l := by
  induction l with
  | nil => exact List.Perm.refl _
  | cons a as ih =>
    exact (insRank_perm rank a (pySortByRank rank as)).trans (List.Perm.cons a ih)

lemma pySortByRank_eq_filters (rank : α → Nat) (l : List α)
    (h : ∀ x ∈ l, rank x ≤ 2) :
    pySortByRank rank l =
      l.filter (fun x => rank x == 0) ++ l.filter (fun x => rank x == 1)
        ++ l.filter (fun x => rank x == 2) := by
  induction l with
  | nil => rfl
  | cons a as ih =>
    have ha : rank a ≤ 2 := h a (by simp)
    have hmem0 : ∀ b ∈ as.filter (fun x => rank x == 0), rank b = 0 := by
      intro b hb; simpa using (List.mem_filter.mp hb).2
    have hmem1 : ∀ b ∈ as.filter (fun x => rank x == 1), rank b = 1 := by
      intro b hb; simpa using (List.mem_filter.mp hb).2
    have hmem2 : ∀ b ∈ as.filter (fun x => rank x == 2), rank b = 2 := by
      intro b hb; simpa using (List.mem_filter.mp hb).2
    have hrec : pySortByRank rank (a :: as) =
        insRank rank a (as.filter (fun x => rank x == 0)
          ++ (as.filter (fun x => rank x == 1) ++ as.filter (fun x => rank x == 2))) := by
      simp only [pySortByRank, ih (fun x hx => h x (by simp [hx])), List.append_assoc]
    rcases (by omega : rank a = 0 ∨ rank a = 1 ∨ rank a = 2) with h0 | h1 | h2
    · rw [hrec, insRank_of_le rank a _ (fun b _ => by omega)]
      simp [List.filter_cons, h0]
    · rw [hrec, insRank_append_of_lt rank a _ _ (fun b hb => by have := hmem0 b hb; omega),
        insRank_of_le rank a _ (fun b hb => by
          rcases List.mem_append.mp hb with hb1 | hb2
          · have := hmem1 b hb1; omega
          · have := hmem2 b hb2; omega)]
      simp [List.filter_cons, h1]
    · rw [hrec, ← List.append_assoc,
        insRank_append_of_lt rank a _ _ (fun b hb => by
          rcases List.mem_append.mp hb with hb1 | hb2
          · have := hmem0 b hb1; omega
          · have := hmem1 b hb2; omega),
        insRank_of_le rank a _ (fun b hb => by have := hmem2 b hb; omega)]
      simp [List.filter_cons, h2]

lemma severityRank_le_two (c : CommentDict) : severityRank c ≤ 2 := by
  simp only [severityRank]
  split_ifs <;> omega

/-- Claim C6: the renderer sorts by severity rank HIGH(0) < MEDIUM(1) < LOW(2)
stably — the sorted list is exactly the rank-0 comments in original order,
then the rank-1 comments, then the rank-2 comments; any severity other than
the three known labels ranks as MEDIUM; and on severities
[LOW, HIGH, MEDIUM, HIGH] the rendered order is [HIGH, HIGH, MEDIUM, LOW]
with the two HIGH entries keeping their original relative order. -/
theorem c6_sort_stable :
    (∀ l : List CommentDict,
      pySortByRank severityRank l =
        l.filter (fun c => severityRank c == 0) ++ l.filter (fun c => severityRank c == 1)
          ++ l.filter (fun c => severityRank c == 2)) ∧
    (∀ c : CommentDict,
      c.severity.getD "MEDIUM" ≠ "HIGH" → c.severity.getD "MEDIUM" ≠ "MEDIUM" →
      c.severity.getD "MEDIUM" ≠ "LOW" → severityRank c = 1) ∧
    pySortByRank severityRank
        [ ⟨"first", "", "", "", some "LOW", Resources.rlist []⟩,
          ⟨"second", "", "", "", some "HIGH", Resources.rlist []⟩,
          ⟨"third", "", "", "", some "MEDIUM", Resources.rlist []⟩,
          ⟨"fourth", "", "", "", some "HIGH", Resources.rlist []⟩ ] =
      [ ⟨"second", "", "", "", some "HIGH", Resources.rlist []⟩,
        ⟨"fourth", "", "", "", some "HIGH", Resources.rlist []⟩,
        ⟨"third", "", "", "", some "MEDIUM", Resources.rlist []⟩,
        ⟨"first", "", "", "", some "LOW", Resources.rlist []⟩ ] := by
  refine ⟨fun l => pySortByRank_eq_filters severityRank l (fun x _ => severityRank_le_two x), ?_, ?_⟩
  · intro c h1 h2 h3
    simp [severityRank, h1, h2, h3]
  · decide

/-- Witness for C6: a comment carrying the unrecognized severity "CRITICAL"
is ranked as MEDIUM (rank 1). -/
theorem c6_sort_stable_witness :
    severityRank ⟨"o", "p", "e", "s", some "CRITICAL", Resources.rlist []⟩ = 1 :=
  c6_sort_stable.2.1 ⟨"o", "p", "e", "s", some "CRITICAL", Resources.rlist []⟩
    (by decide) (by decide) (by decide)

/-- Claim C9: rendering only reorders the comment collection — the sort is a
permutation of the input list, so every record (with all six of its fields)
occurs in the sorted collection exactly as often as in the input, and no
record is mutated. -/
theorem c9_sort_permutes :
    ∀ l : List CommentDict,
      (pySortByRank severityRank l).Perm l ∧
      ∀ c : CommentDict, (pySortByRank severityRank l).count c = l.count c := by
  intro l
  exact ⟨pySortByRank_perm severityRank l,
    fun c => (pySortByRank_perm severityRank l).count_eq c⟩

-- ### Resources rendering lemmas

lemma bullet_filterMap (xs : List String) :
    xs.filterMap (fun line =>
        let t := pyStrip line
        if t = "" then none else some ("- " ++ t ++ "\n"))
      = ((xs.map pyStrip).filter (fun t => t ≠ "")).map (fun t => "- " ++ t ++ "\n") := by
  induction xs with
  | nil => rfl
  | cons x xs ih =>
    by_cases hx : pyStrip x = ""
    · simp [List.filterMap_cons, List.filter_cons, hx, ih]
    · simp [List.filterMap_cons, List.filter_cons, hx, ih]

lemma bullet_filterMap_guard (xs : List String) :
    xs.filterMap (fun r =>
        if r = "" then none
        else
          let t := pyStrip r
          if t = "" then none else some ("- " ++ t ++ "\n"))
      = xs.filterMap (fun line =>
          let t := pyStrip line
          if t = "" then none else some ("- " ++ t ++ "\n")) := by
  induction xs with
  | nil => rfl
  | cons x xs ih =>
    by_cases hx : x = ""
    · subst hx
      simp [List.filterMap_cons, ih, show pyStrip "" = "" from rfl]
    · simp [List.filterMap_cons, hx, ih]

/-- Claim C7: the Learning Resources subsection never faults — a falsy
resources value (None, empty string, empty list; an absent key arrives as the
`.get` default `[]`) renders as the empty string, i.e. the subsection is
omitted; a non-empty delimited string renders one bullet per line that is
non-empty after stripping, with the stripped line as bullet text; a
non-empty list renders one bullet per item that is non-empty after
stripping, with the stripped item as bullet text. -/
theorem c7_resources_render :
    resourcesBlock Resources.rnone = "" ∧
    resourcesBlock (Resources.rstr "") = "" ∧
    resourcesBlock (Resources.rlist []) = "" ∧
    (∀ s : String, s ≠ "" →
      resourcesBlock (Resources.rstr s) =
        "**📖 Learning Resources:**\n"
        ++ String.join ((((s.splitOn "\n").map pyStrip).filter (fun t => t ≠ "")).map
              (fun t => "- " ++ t ++ "\n"))
        ++ "\n") ∧
    (∀ l : List String, l ≠ [] →
      resourcesBlock (Resources.rlist l) =
        "**📖 Learning Resources:**\n"
        ++ String.join (((l.map pyStrip).filter (fun t => t ≠ "")).map
              (fun t => "- " ++ t ++ "\n"))
        ++ "\n") := by
  refine ⟨rfl, rfl, rfl, ?_, ?_⟩
  · intro s hs
    simp only [resourcesBlock, if_neg hs]
    rw [bullet_filterMap]
  · intro l hl
    simp only [resourcesBlock, if_neg hl]
    rw [bullet_filterMap_guard, bullet_filterMap]

/-- Witness for C7: a concrete delimited string with padding and a blank
line renders exactly the two stripped bullets. -/
theorem c7_resources_render_witness :
    resourcesBlock (Resources.rstr "  doc one \n\n link two ") =
      "**📖 Learning Resources:**\n"
      ++ String.join (((("  doc one \n\n link two ".splitOn "\n").map pyStrip).filter
            (fun t => t ≠ "")).map (fun t => "- " ++ t ++ "\n"))
      ++ "\n" :=
  c7_resources_render.2.2.2.1 "  doc one \n\n link two " (by decide)

/-- The four named output fields of the `EmpathySignature` generation call. -/
structure TransformOut where
  positive_rephrasing : String
  why_explanation : String
  suggested_improvement : String
  severity_level : String
deriving DecidableEq, Repr

/-- The dict built and returned by `EmpathyAnalyzer.forward` on success. -/
structure Feedback where
  positive_rephrasing : String
  explanation : String
  suggested_improvement : String
  severity : String
  resources : Resources
deriving DecidableEq, Repr

/-- Oracle for `self.empathy_transformer(code_snippet=..., harsh_comment=..., context=...)`. -/
abbrev TransformFun := String → String → String → Except PyErr TransformOut

/-- Oracle for `self.resource_finder(topic=..., language=...)`; the value of
its `resources` output field may be a string or a list. -/
abbrev ResourceFun := String → String → Except PyErr Resources

/-- Oracle for `self.summary_generator(code_snippet=..., all_feedback=..., language=...).summary`. -/
abbrev SummaryFun := String → String → String → Except PyErr String

/-- `EmpathyAnalyzer.forward`: the whole body sits in a try block whose
except-clause only logs, so the method never raises; a failure of either
external call makes it fall through and return Python `None`, modelled as
`Except.ok none`. -/
def EmpathyAnalyzer.forward (transform : TransformFun) (findRes : ResourceFun)
    (code_snippet comment language : String) : Except PyErr (Option Feedback) :=
  Except.ok
    (match transform code_snippet comment
        (language ++ " best practices and clean code principles") with
      | Except.error _ => none
      | Except.ok result =>
        match findRes (result.why_explanation.take 100) language with
        | Except.error _ => none
        | Except.ok res =>
          some ⟨result.positive_rephrasing, result.why_explanation,
                result.suggested_improvement, result.severity_level, res⟩)

/-- The dict-merge `{"original": comment, **result}` in `process_review`:
unpacking `None` with `**` raises `TypeError`; unpacking the feedback dict
yields the comment record. -/
def starMerge (comment : String) (result : Option Feedback) : Except PyErr CommentDict :=
  match result with
  | none => Except.error PyErr.typeError
  | some fb =>
    Except.ok ⟨comment, fb.positive_rephrasing, fb.explanation,
               fb.suggested_improvement, some fb.severity, fb.resources⟩

/-- The fixed fallback record appended by the per-comment except-clause. -/
def fallbackRecord (comment : String) : CommentDict :=
  { original := comment
    positive_rephrasing := "Let\x27s look at improving this aspect: " ++ comment
    explanation := "This change will improve code quality."
    suggested_improvement := "# See suggested improvement in code"
    severity := some "MEDIUM"
    resources := Resources.rlist [] }

/-- One iteration of the per-comment loop in `process_review`: call the
analyzer, merge the result into a dict; any exception in those two steps is
caught and replaced by the fallback record. -/
def processComment (transform : TransformFun) (findRes : ResourceFun)
    (code_snippet language comment : String) : CommentDict :=
  match EmpathyAnalyzer.forward transform findRes code_snippet comment language with
  | Except.error _ => fallbackRecord comment
  | Except.ok optFb =>
    match starMerge comment optFb with
    | Except.ok d => d
    | Except.error _ => fallbackRecord comment

/-- The reviewer object: the three generation oracles plus the configured LM.
`__init__` always stores a real `dspy.LM` in `self.lm` and hands it to
`LanguageDetector`, so the detector field is always `some lm`. -/
structure EmpatheticCodeReviewer where
  transform : TransformFun
  findRes : ResourceFun
  summaryGen : SummaryFun
  lm : LMFun

/-- The input dict: `code_snippet` and `review_comments`. -/
structure ReviewInput where
  code_snippet : String
  review_comments : List String

/-- `EmpatheticCodeReviewer.process_review`. Note the summary step: the
try-block assigns the local `summary` only on success and the except-clause
only logs, so after a summary failure the name `summary` is unbound and
evaluating it in the `generate_markdown_report` call raises
`UnboundLocalError` (a `NameError`), which propagates out — modelled by
`Except.error PyErr.nameError`. -/
def process_review (r : EmpatheticCodeReviewer) (mc : MatchCount)
    (input : ReviewInput) : Except PyErr String :=
  match detect_language mc (some r.lm) input.code_snippet with
  | Except.error e => Except.error e
  | Except.ok language =>
    let transformed_comments :=
      input.review_comments.map (processComment r.transform r.findRes input.code_snippet language)
    let all_feedback :=
      String.intercalate "\n" (transformed_comments.map (fun tc => "- " ++ tc.positive_rephrasing))
    match r.summaryGen input.code_snippet all_feedback language with
    | Except.ok summary =>
      Except.ok (generate_markdown_report input.code_snippet transformed_comments summary language)
    | Except.error _ => Except.error PyErr.nameError

lemma renderSections_length (code_lang : String) :
    ∀ (i : Nat) (cs : List CommentDict), (renderSections code_lang i cs).length = cs.length := by
  intro i cs
  induction cs generalizing i with
  | nil => rfl
  | cons c cs ih => simp [renderSections, ih]

/-- Claim C10: `EmpathyAnalyzer.forward` never raises — for every choice of
oracles it returns normally; when the generation call fails, it returns
Python `None` (`ok none`), the orchestrator merge `{"original": ..., **None}`
is what raises `TypeError`, and the per-comment handler turns exactly that
into the fallback record. -/
theorem c10_forward_no_raise :
    ∀ (transform : TransformFun) (findRes : ResourceFun) (code comment language : String),
      (∃ v, EmpathyAnalyzer.forward transform findRes code comment language = Except.ok v) ∧
      (∀ e : PyErr,
        transform code comment (language ++ " best practices and clean code principles")
          = Except.error e →
        EmpathyAnalyzer.forward transform findRes code comment language = Except.ok none ∧
        starMerge comment none = Except.error PyErr.typeError ∧
        processComment transform findRes code language comment = fallbackRecord comment) := by
  intro transform findRes code comment language
  refine ⟨⟨_, rfl⟩, ?_⟩
  intro e he
  refine ⟨?_, rfl, ?_⟩
  · simp [EmpathyAnalyzer.forward, he]
  · simp [processComment, EmpathyAnalyzer.forward, he, starMerge, fallbackRecord]

/-- Witness for C10 at a concrete always-failing generation oracle. -/
theorem c10_forward_no_raise_witness :
    EmpathyAnalyzer.forward (fun _ _ _ => Except.error PyErr.typeError)
        (fun _ _ => Except.ok (Resources.rlist [])) "code" "comment" "Python"
      = Except.ok none ∧
    starMerge "comment" none = Except.error PyErr.typeError ∧
    processComment (fun _ _ _ => Except.error PyErr.typeError)
        (fun _ _ => Except.ok (Resources.rlist [])) "code" "Python" "comment"
      = fallbackRecord "comment" :=
  (c10_forward_no_raise (fun _ _ _ => Except.error PyErr.typeError)
    (fun _ _ => Except.ok (Resources.rlist [])) "code" "comment" "Python").2
    PyErr.typeError rfl

/-- Claim C5 (code bug): when the summary-generation call fails, the
except-clause only logs and the local `summary` stays unbound, so
`process_review` raises `UnboundLocalError` at the report-generation call
instead of completing with an absent/empty summary. Evaluated at a concrete
input with a failing summary oracle. -/
theorem c5_summary_crash :
    process_review
      { transform := fun _ _ _ => Except.ok ⟨"r", "e", "s", "MEDIUM"⟩
        findRes := fun _ _ => Except.ok (Resources.rlist [])
        summaryGen := fun _ _ _ => Except.error (PyErr.other "summary failed")
        lm := fun _ => Except.ok "Python" }
      (fun _ _ => 1) ⟨"import os", []⟩ = Except.error PyErr.nameError := rfl

/-- Claim C4 (code bug): every invocation of the LLM fallback raises
`AttributeError` (classmethod `self` is the class, which has no `lm`
attribute), so the validation/catch logic inside the try block is dead code
and the error propagates to `detect_language`'s caller; evaluated at a
concrete pattern-free snippet with a configured LM. -/
theorem c4_fallback_crashes :
    (∀ code : String, detect_language_llm code = Except.error PyErr.attributeError) ∧
    detect_language (fun _ _ => 0) (some (fun _ => Except.ok "Rust")) "zzzz"
      = Except.error PyErr.attributeError :=
  ⟨fun _ => rfl, rfl⟩

/-- Counterexample for C3: on the whitespace-only snippet " " with a fallback
configured, `detect_language` does not return "Unknown" — it takes the
fallback path, which raises `AttributeError`. -/
theorem c3_counterexample :
    detect_language (fun _ _ => 0) (some (fun _ => Except.ok "Python")) " "
      = Except.error PyErr.attributeError ∧
    detect_language (fun _ _ => 0) (some (fun _ => Except.ok "Python")) " "
      ≠ Except.ok "Unknown" := by
  constructor
  · rfl
  · intro hc
    rw [show detect_language (fun _ _ => 0) (some (fun _ => Except.ok "Python")) " "
          = Except.error PyErr.attributeError from rfl] at hc
    exact absurd hc (by simp)

/-- Claim C3 as amended: for every blank (empty or whitespace-only) snippet,
the regex pass returns "Unknown" without any pattern scoring (the result is
independent of the match-count oracle), and `detect_language` returns
"Unknown" without invoking the fallback only when no LM is configured; when
an LM is configured the fallback path is entered and (in this code) raises
`AttributeError`. -/
theorem c3_amended :
    ∀ (mc : MatchCount) (code : String), pyBlank code = true →
      detect_language_regex mc code = "Unknown" ∧
      detect_language mc none code = Except.ok "Unknown" ∧
      (∀ lm : LMFun, detect_language mc (some lm) code = Except.error PyErr.attributeError) := by
  intro mc code hb
  have hreg : detect_language_regex mc code = "Unknown" := by
    simp [detect_language_regex, hb]
  refine ⟨hreg, ?_, ?_⟩
  · simp [detect_language, hreg]
  · intro lm
    simp [detect_language, hreg, detect_language_llm]

/-- Witness for the amended C3 at the blank snippet consisting of a tab and a
space, with a nonzero match-count oracle (showing no scoring took place). -/
theorem c3_amended_witness :
    detect_language_regex (fun _ _ => 3) "\t " = "Unknown" ∧
    detect_language (fun _ _ => 3) none "\t " = Except.ok "Unknown" ∧
    detect_language (fun _ _ => 3) (some (fun _ => Except.ok "Go")) "\t "
      = Except.error PyErr.attributeError :=
  ⟨(c3_amended (fun _ _ => 3) "\t " (by decide)).1,
   (c3_amended (fun _ _ => 3) "\t " (by decide)).2.1,
   (c3_amended (fun _ _ => 3) "\t " (by decide)).2.2 (fun _ => Except.ok "Go")⟩

/-- Claim C1: whenever `process_review` generates a report, that report is the
rendering of exactly one transformed record per input comment — the comment
list is mapped pointwise, the rendered feedback-section list has exactly N
entries for N input comments (including N = 0), a comment whose
transformation failed (the analyzer returned `None`) carries exactly the
fixed fallback record, and a comment whose transformation succeeded carries
exactly the analyzer output, independent of the other comments. When
language detection or summary generation raises (claims C4/C5), no report is
produced and there is nothing to count. -/
theorem c1_report_sections :
    ∀ (r : EmpatheticCodeReviewer) (mc : MatchCount) (input : ReviewInput) (report : String),
      process_review r mc input = Except.ok report →
      ∃ language summary,
        detect_language mc (some r.lm) input.code_snippet = Except.ok language ∧
        report = generate_markdown_report input.code_snippet
            (input.review_comments.map
              (processComment r.transform r.findRes input.code_snippet language))
            summary language ∧
        (input.review_comments.map
            (processComment r.transform r.findRes input.code_snippet language)).length
          = input.review_comments.length ∧
        (renderSections (dictGetD lang_map language "text") 1
            (pySortByRank severityRank
              (input.review_comments.map
                (processComment r.transform r.findRes input.code_snippet language)))).length
          = input.review_comments.length ∧
        (∀ comment : String,
          EmpathyAnalyzer.forward r.transform r.findRes input.code_snippet comment language
            = Except.ok none →
          processComment r.transform r.findRes input.code_snippet language comment
            = fallbackRecord comment) ∧
        (∀ (comment : String) (fb : Feedback),
          EmpathyAnalyzer.forward r.transform r.findRes input.code_snippet comment language
            = Except.ok (some fb) →
          processComment r.transform r.findRes input.code_snippet language comment
            = ⟨comment, fb.positive_rephrasing, fb.explanation, fb.suggested_improvement,
               some fb.severity, fb.resources⟩) := by
  intro r mc input report h
  simp only [process_review] at h
  split at h
  · exact absurd h (by simp)
  · rename_i language hdet
    split at h
    · rename_i summary hsum
      injection h with h'
      refine ⟨language, summary, hdet, h'.symm, List.length_map _ _, ?_, ?_, ?_⟩
      · rw [renderSections_length,
          (pySortByRank_perm severityRank _).length_eq, List.length_map]
      · intro comment hfwd
        simp [processComment, hfwd, starMerge]
      · intro comment fb hfwd
        simp [processComment, hfwd, starMerge]
    · exact absurd h (by simp)

/-- Concrete reviewer for the C1 witness: the generation oracle always fails,
the summary oracle succeeds. -/
def c1WitnessReviewer : EmpatheticCodeReviewer :=
  { transform := fun _ _ _ => Except.error PyErr.typeError
    findRes := fun _ _ => Except.ok (Resources.rlist [])
    summaryGen := fun _ _ _ => Except.ok "Great start!"
    lm := fun _ => Except.ok "Python" }

/-- Concrete input for the C1 witness. -/
def c1WitnessInput : ReviewInput :=
  ⟨"import os", ["Bad variable name."]⟩

/-- The report `process_review` produces on the C1 witness input. -/
def c1WitnessReport : String :=
  match process_review c1WitnessReviewer (fun _ _ => 1) c1WitnessInput with
  | Except.ok s => s
  | Except.error _ => ""

/-- Witness for C1: the witness reviewer and input produce a report, and the
theorem instantiates at them. -/
theorem c1_report_sections_witness :
    ∃ language summary,
      detect_language (fun _ _ => 1) (some c1WitnessReviewer.lm) c1WitnessInput.code_snippet
        = Except.ok language ∧
      c1WitnessReport = generate_markdown_report c1WitnessInput.code_snippet
          (c1WitnessInput.review_comments.map
            (processComment c1WitnessReviewer.transform c1WitnessReviewer.findRes
              c1WitnessInput.code_snippet language))
          summary language ∧
      (c1WitnessInput.review_comments.map
          (processComment c1WitnessReviewer.transform c1WitnessReviewer.findRes
            c1WitnessInput.code_snippet language)).length
        = c1WitnessInput.review_comments.length ∧
      (renderSections (dictGetD lang_map language "text") 1
          (pySortByRank severityRank
            (c1WitnessInput.review_comments.map
              (processComment c1WitnessReviewer.transform c1WitnessReviewer.findRes
                c1WitnessInput.code_snippet language)))).length
        = c1WitnessInput.review_comments.length ∧
      (∀ comment : String,
        EmpathyAnalyzer.forward c1WitnessReviewer.transform c1WitnessReviewer.findRes
            c1WitnessInput.code_snippet comment language = Except.ok none →
        processComment c1WitnessReviewer.transform c1WitnessReviewer.findRes
            c1WitnessInput.code_snippet language comment = fallbackRecord comment) ∧
      (∀ (comment : String) (fb : Feedback),
        EmpathyAnalyzer.forward c1WitnessReviewer.transform c1WitnessReviewer.findRes
            c1WitnessInput.code_snippet comment language = Except.ok (some fb) →
        processComment c1WitnessReviewer.transform c1WitnessReviewer.findRes
            c1WitnessInput.code_snippet language comment
          = ⟨comment, fb.positive_rephrasing, fb.explanation, fb.suggested_improvement,
             some fb.severity, fb.resources⟩) :=
  c1_report_sections c1WitnessReviewer (fun _ _ => 1) c1WitnessInput c1WitnessReport rfl

-- ### Line splitting for the fence re-parser (claim C8)

/-- Split a character list at every newline (the semantics of splitting a
text document into lines; mirrors Python `s.split(chr(10))`). -/
def splitNl : List Char → List (List Char)
  | [] => [[]]
  | c :: cs =>
    if c = '\n' then [] :: splitNl cs
    else
      match splitNl cs with
      | [] => [[c]]
      | h :: t => (c :: h) :: t

/-- Rejoin lines with newlines; inverse of `splitNl`. -/
def joinNl : List (List Char) → List Char
  | [] => []
  | [l] => l
  | l :: ls => l ++ '\n' :: joinNl ls

/-- The markdown fence marker. -/
def fenceMarker : String := "```"

/-- A line that opens or closes a fenced block. -/
def isFenceLine (l : List Char) : Bool :=
  fenceMarker.data.isPrefixOf l

/-- Modelled from the spec: "re-parsing the code fence from the report" — the
spec names no parser, so this is the standard line-based reading of a
markdown fenced block: split the document into lines, drop everything before
the first fence line (the opening fence carrying its info string), and take
the following lines up to the next fence line as the block content. -/
def extract_first_fence (doc : String) : Option String :=
  match (splitNl doc.data).dropWhile (fun l => !isFenceLine l) with
  | [] => none
  | _ :: rest => some (String.mk (joinNl (rest.takeWhile (fun l => !isFenceLine l))))

lemma splitNl_ne_nil : ∀ l : List Char, splitNl l ≠ [] := by
  intro l
  cases l with
  | nil => simp [splitNl]
  | cons c cs =>
    simp only [splitNl]
    split
    · simp
    · split <;> simp

lemma splitNl_cons_of_ne (x : Char) (xs : List Char) (hx : x ≠ '\n') :
    splitNl (x :: xs) =
      (match splitNl xs with
        | [] => [[x]]
        | h :: t => (x :: h) :: t) := by
  simp [splitNl, hx]

lemma splitNl_append_nl (a b : List Char) :
    splitNl (a ++ '\n' :: b) = splitNl a ++ splitNl b := by
  induction a with
  | nil => simp [splitNl]
  | cons c cs ih =>
    by_cases hc : c = '\n'
    · subst hc
      simp [splitNl, ih]
    · rw [List.cons_append, splitNl_cons_of_ne c (cs ++ '\n' :: b) hc,
        splitNl_cons_of_ne c cs hc, ih]
      cases hcs : splitNl cs with
      | nil => exact absurd hcs (splitNl_ne_nil cs)
      | cons h t => simp

lemma joinNl_splitNl : ∀ l : List Char, joinNl (splitNl l) = l := by
  intro l
  induction l with
  | nil => rfl
  | cons c cs ih =>
    by_cases hc : c = '\n'
    · subst hc
      simp only [splitNl, if_pos rfl]
      cases hcs : splitNl cs with
      | nil => exact absurd hcs (splitNl_ne_nil cs)
      | cons h t =>
        rw [hcs] at ih
        cases t with
        | nil => simpa [joinNl] using ih
        | cons t1 ts => simpa [joinNl] using ih
    · simp only [splitNl, if_neg hc]
      cases hcs : splitNl cs with
      | nil => exact absurd hcs (splitNl_ne_nil cs)
      | cons h t =>
        rw [hcs] at ih
        cases t with
        | nil => simpa [joinNl] using ih
        | cons t1 ts => simpa [joinNl] using ih

lemma splitNl_fenceMarker : splitNl fenceMarker.data = [fenceMarker.data] := by decide

lemma isFenceLine_fenceMarker : isFenceLine fenceMarker.data = true := by decide

/-- Core extraction fact: if a document splits into non-fence lines, then an
opening fence line, then the lines of `code` (none of which is a fence
line), then a closing fence line and arbitrary trailing lines, the re-parser
recovers `code` exactly. -/
lemma extract_first_fence_eq (doc : String) (hs : List (List Char)) (opn : List Char)
    (code : String) (zs : List (List Char))
    (hdoc : splitNl doc.data = hs ++ opn :: (splitNl code.data ++ fenceMarker.data :: zs))
    (hhs : ∀ x ∈ hs, isFenceLine x = false)
    (hopn : isFenceLine opn = true)
    (hcode : ∀ x ∈ splitNl code.data, isFenceLine x = false) :
    extract_first_fence doc = some code := by
  unfold extract_first_fence
  rw [hdoc]
  rw [List.dropWhile_append_of_pos (by intro x hx; simp [hhs x hx])]
  rw [List.dropWhile_cons_of_neg (by simp [hopn])]
  have htake : (splitNl code.data ++ fenceMarker.data :: zs).takeWhile
      (fun l => !isFenceLine l) = splitNl code.data := by
    rw [List.takeWhile_append_of_pos (by intro x hx; simp [hcode x hx])]
    rw [List.takeWhile_cons_of_neg (by simp [isFenceLine_fenceMarker])]
    simp
  simp only [htake, joinNl_splitNl]

/-- Everything in the report before the newline that precedes the code
snippet (title, detected language line, section header, opening fence with
its info string). -/
def reportPre (language code_lang : String) : String :=
  "# 🌟 Code Review Feedback Report\n\n"
  ++ ("**Programming Language Detected:** " ++ language ++ "\n\n")
  ++ "## 📝 Original Code\n\n"
  ++ ("```" ++ code_lang)

/-- Everything in the report after the newline that follows the closing
fence of the code block. -/
def reportPost (code_lang : String) (comments : List CommentDict) (summary : String) : String :=
  "\n## 💡 Detailed Feedback\n\n"
  ++ String.join (renderSections code_lang 1 (pySortByRank severityRank comments))
  ++ "---\n\n"
  ++ "## 🎯 Overall Summary\n\n"
  ++ (summary ++ "\n\n")
  ++ "---\n\n"
  ++ "*Remember: Every expert was once a beginner. Keep coding, keep learning, and keep growing! 🚀*\n"

lemma data_nl : ("\n" : String).data = ['\n'] := rfl

lemma data_close_fence :
    ("\n```\n\n" : String).data = '\n' :: (fenceMarker.data ++ ['\n', '\n']) := by decide

lemma data_feedback_header :
    ("\n## 💡 Detailed Feedback\n\n" : String).data
      = '\n' :: ("## 💡 Detailed Feedback\n\n" : String).data := by decide

lemma report_decomp (code : String) (comments : List CommentDict) (summary language : String) :
    (generate_markdown_report code comments summary language).data =
      (reportPre language (dictGetD lang_map language "text")).data
      ++ '\n' :: (code.data
      ++ '\n' :: (fenceMarker.data
      ++ '\n' :: (reportPost (dictGetD lang_map language "text") comments summary).data)) := by
  simp [generate_markdown_report, reportPre, reportPost, fenceMarker, String.data_append,
    data_nl, data_close_fence, data_feedback_header, List.append_assoc]

lemma splitNl_report (code : String) (comments : List CommentDict) (summary language : String) :
    splitNl (generate_markdown_report code comments summary language).data
      = splitNl (reportPre language (dictGetD lang_map language "text")).data
        ++ (splitNl code.data
          ++ fenceMarker.data
            :: splitNl (reportPost (dictGetD lang_map language "text") comments summary).data) := by
  rw [report_decomp, splitNl_append_nl, splitNl_append_nl, splitNl_append_nl, splitNl_fenceMarker]
  simp

lemma c8_case (language code_lang : String) (code : String) (comments : List CommentDict)
    (summary : String) (hs : List (List Char))
    (hcl : dictGetD lang_map language "text" = code_lang)
    (hsplit : splitNl (reportPre language code_lang).data = hs ++ [("```" ++ code_lang).data])
    (hhs : ∀ x ∈ hs, isFenceLine x = false)
    (hfence : isFenceLine (("```" ++ code_lang).data) = true)
    (hcode : ∀ l ∈ splitNl code.data, isFenceLine l = false) :
    extract_first_fence (generate_markdown_report code comments summary language) = some code := by
  refine extract_first_fence_eq _ hs (("```" ++ code_lang).data) code
    (splitNl (reportPost code_lang comments summary).data) ?_ hhs hfence hcode
  rw [splitNl_report, hcl, hsplit]
  simp [List.append_assoc]

/-- Claim C8 as amended: the byte-for-byte round trip holds for every
code snippet none of whose lines starts with the fence marker (a snippet
containing such a line closes the fence early — see the counterexample);
`language` ranges over the values the detector can produce. -/
theorem c8_roundtrip_amended :
    ∀ language : String,
      language ∈ ["Python", "JavaScript", "Java", "C++", "C#", "TypeScript", "Go", "Rust", "Unknown"] →
      ∀ (code : String) (comments : List CommentDict) (summary : String),
        (∀ l ∈ splitNl code.data, isFenceLine l = false) →
        extract_first_fence (generate_markdown_report code comments summary language)
          = some code := by
  intro language hlang code comments summary hcode
  rcases (by simpa using hlang :
    language = "Python" ∨ language = "JavaScript" ∨ language = "Java" ∨ language = "C++" ∨ language = "C#" ∨ language = "TypeScript" ∨ language = "Go" ∨ language = "Rust" ∨ language = "Unknown") with rfl|rfl|rfl|rfl|rfl|rfl|rfl|rfl|rfl
  · exact c8_case "Python" "python" code comments summary
      [("# 🌟 Code Review Feedback Report" : String).data, [],
       ("**Programming Language Detected:** Python" : String).data, [],
       ("## 📝 Original Code" : String).data, []]
      rfl (by decide) (by decide) (by decide) hcode
  · exact c8_case "JavaScript" "javascript" code comments summary
      [("# 🌟 Code Review Feedback Report" : String).data, [],
       ("**Programming Language Detected:** JavaScript" : String).data, [],
       ("## 📝 Original Code" : String).data, []]
      rfl (by decide) (by decide) (by decide) hcode
  · exact c8_case "Java" "java" code comments summary
      [("# 🌟 Code Review Feedback Report" : String).data, [],
       ("**Programming Language Detected:** Java" : String).data, [],
       ("## 📝 Original Code" : String).data, []]
      rfl (by decide) (by decide) (by decide) hcode
  · exact c8_case "C++" "cpp" code comments summary
      [("# 🌟 Code Review Feedback Report" : String).data, [],
       ("**Programming Language Detected:** C++" : String).data, [],
       ("## 📝 Original Code" : String).data, []]
      rfl (by decide) (by decide) (by decide) hcode
  · exact c8_case "C#" "csharp" code comments summary
      [("# 🌟 Code Review Feedback Report" : String).data, [],
       ("**Programming Language Detected:** C#" : String).data, [],
       ("## 📝 Original Code" : String).data, []]
      rfl (by decide) (by decide) (by decide) hcode
  · exact c8_case "TypeScript" "typescript" code comments summary
      [("# 🌟 Code Review Feedback Report" : String).data, [],
       ("**Programming Language Detected:** TypeScript" : String).data, [],
       ("## 📝 Original Code" : String).data, []]
      rfl (by decide) (by decide) (by decide) hcode
  · exact c8_case "Go" "go" code comments summary
      [("# 🌟 Code Review Feedback Report" : String).data, [],
       ("**Programming Language Detected:** Go" : String).data, [],
       ("## 📝 Original Code" : String).data, []]
      rfl (by decide) (by decide) (by decide) hcode
  · exact c8_case "Rust" "rust" code comments summary
      [("# 🌟 Code Review Feedback Report" : String).data, [],
       ("**Programming Language Detected:** Rust" : String).data, [],
       ("## 📝 Original Code" : String).data, []]
      rfl (by decide) (by decide) (by decide) hcode
  · exact c8_case "Unknown" "text" code comments summary
      [("# 🌟 Code Review Feedback Report" : String).data, [],
       ("**Programming Language Detected:** Unknown" : String).data, [],
       ("## 📝 Original Code" : String).data, []]
      rfl (by decide) (by decide) (by decide) hcode

/-- Counterexample for C8: for the code snippet consisting of a single fence
line, re-parsing the first fenced block of the rendered report yields the
empty string, not the original snippet — the snippet's own fence line closes
the block early. -/
theorem c8_counterexample :
    extract_first_fence (generate_markdown_report "```" [] "s" "Unknown") = some "" ∧
    extract_first_fence (generate_markdown_report "```" [] "s" "Unknown") ≠ some "```" := by
  have h : extract_first_fence (generate_markdown_report "```" [] "s" "Unknown") = some "" := by
    decide
  refine ⟨h, ?_⟩
  rw [h]
  simp

/-- Witness for the amended C8 at a concrete fence-free snippet. -/
theorem c8_roundtrip_amended_witness :
    extract_first_fence (generate_markdown_report "def f(x):\n    return x" [] "great" "Python")
      = some "def f(x):\n    return x" :=
  c8_roundtrip_amended "Python" (by decide) "def f(x):\n    return x" [] "great" (by decide)
